import Mathlib

/-!
Shallow embedding of the `contains` Rust crate (src/lib.rs).

The crate exposes two traits:
  * `Container<T>` with a single method `does_contain(&self, item: &T) -> bool`;
  * `In<C>` with `is_in(&self, container: &C) -> bool`, given once, as a blanket
    implementation forwarding to `Container::does_contain`.

Containers are modelled as follows: `Vec<T>` and `&[T]` become `List T`; fixed
arrays `[T; N]` become length-indexed lists (`RustArray`); `Option<T>` stays
`Option T`; Rust ranges become two-field structures.  Rust `PartialEq` on the
element type is modelled as decidable equality, `PartialOrd` as a linear order.

The sub-sequence implementation
  `self.windows(item.len()).any(|slice| &slice == item)`
calls `slice::windows(size)`, which in Rust panics when `size == 0`.  The
panic is modelled by returning `Option Bool`: `none` is the panic, `some b`
a normal return of `b`.
-/

/-- Rust trait `Container<T>`: `does_contain(&self, item: &T) -> bool`. -/
class Container (C : Type) (T : Type) where
  does_contain : C → T → Bool

/-- Rust trait `In<C>`: `is_in(&self, container: &C) -> bool`. -/
class In (T : Type) (C : Type) where
  is_in : T → C → Bool

/-- The blanket `impl<C, T> In<C> for T where C: Container<T>`:
`fn is_in(&self, container: &C) -> bool { container.does_contain(self) }`. -/
instance instInOfContainer {C T : Type} [Container C T] : In T C where
  is_in e c := Container.does_contain c e

/-- `impl<T> Container<T> for Vec<T>`: `self.contains(item)`, a linear scan
comparing each element with `==`. -/
def Vec.does_contain {T : Type} [DecidableEq T] (c : List T) (item : T) : Bool :=
  c.any fun y => decide (y = item)

/-- `impl<T> Container<T> for &[T]`: `self.contains(item)`, a linear scan
comparing each element with `==`. -/
def Slice.does_contain {T : Type} [DecidableEq T] (c : List T) (item : T) : Bool :=
  c.any fun y => decide (y = item)

/-- `impl<T> Container<T> for Option<T>`:
`matches!(self, Some(x) if x == item)`. -/
def Option.does_contain {T : Type} [DecidableEq T] : Option T → T → Bool
  | some x, item => decide (x = item)
  | none, _ => false

/-- The list of windows produced by Rust `c.windows(n)` once `n != 0`:
window `i` is `&c[i..i + n]`, for `i` ranging over `0 .. c.len() + 1 - n`
(saturating subtraction: no window when `n > c.len()`). -/
def windowsList {T : Type} (c : List T) (n : Nat) : List (List T) :=
  (List.range (c.length + 1 - n)).map fun i => (c.drop i).take n

/-- `impl<T> Container<&[T]> for &[T]`:
`self.windows(item.len()).any(|slice| &slice == item)`.
Rust `slice::windows(size)` panics when `size == 0`; the panic is `none`. -/
def Slice.does_contain_sub {T : Type} [DecidableEq T] (c item : List T) : Option Bool :=
  if item.length = 0 then none
  else some ((windowsList c item.length).any fun w => decide (w = item))

/-- A Rust fixed-size array `[T; N]`: a list together with its length. -/
structure RustArray (T : Type) (N : Nat) where
  data : List T
  len_eq : data.length = N

/-- `impl<T, const N1, const N> Container<[T; N1]> for [T; N]`: coerce the
container and the item to slices and delegate to the slice implementation. -/
def RustArray.does_contain_arr {T : Type} [DecidableEq T] {N N1 : Nat}
    (c : RustArray T N) (item : RustArray T N1) : Option Bool :=
  Slice.does_contain_sub c.data item.data

/-- `impl<T, const N1> Container<[T; N1]> for &[T]`: coerce the item to a
slice and delegate to the slice implementation. -/
def Slice.does_contain_arr {T : Type} [DecidableEq T] {N1 : Nat}
    (c : List T) (item : RustArray T N1) : Option Bool :=
  Slice.does_contain_sub c item.data

/-- `impl<T, const N> Container<&[T]> for [T; N]`: coerce the container to a
slice and delegate to the slice implementation. -/
def RustArray.does_contain_slice {T : Type} [DecidableEq T] {N : Nat}
    (c : RustArray T N) (item : List T) : Option Bool :=
  Slice.does_contain_sub c.data item

/-- `impl<T, const N1> Container<[T; N1]> for Vec<T>`: coerce the container and
the item to slices and delegate to the slice implementation. -/
def Vec.does_contain_arr {T : Type} [DecidableEq T] {N1 : Nat}
    (c : List T) (item : RustArray T N1) : Option Bool :=
  Slice.does_contain_sub c item.data

/-- `impl<T> Container<&[T]> for Vec<T>`: coerce the container to a slice and
delegate to the slice implementation. -/
def Vec.does_contain_slice {T : Type} [DecidableEq T]
    (c : List T) (item : List T) : Option Bool :=
  Slice.does_contain_sub c item

/-- Rust `std::ops::Range<T>`, the half-open range `start..end`. -/
structure Range (T : Type) where
  start : T
  stop : T

/-- `impl<T: PartialOrd> Container<T> for Range<T>`: `self.contains(item)`,
which for a half-open range is `start <= item && item < end`. -/
def Range.does_contain {T : Type} [LinearOrder T] (r : Range T) (item : T) : Bool :=
  decide (r.start ≤ item) && decide (item < r.stop)

/-- Rust `std::ops::RangeInclusive<T>`, the closed range `start..=end`. -/
structure RangeInclusive (T : Type) where
  start : T
  stop : T

/-- `impl<T: PartialOrd> Container<T> for RangeInclusive<T>`:
`self.contains(item)`, which is `start <= item && item <= end`. -/
def RangeInclusive.does_contain {T : Type} [LinearOrder T]
    (r : RangeInclusive T) (item : T) : Bool :=
  decide (r.start ≤ item) && decide (item ≤ r.stop)

instance instContainerVec {T : Type} [DecidableEq T] : Container (List T) T :=
  ⟨Vec.does_contain⟩

instance instContainerOption {T : Type} [DecidableEq T] : Container (Option T) T :=
  ⟨fun o x => Option.does_contain o x⟩

instance instContainerRange {T : Type} [LinearOrder T] : Container (Range T) T :=
  ⟨Range.does_contain⟩

instance instContainerRangeInclusive {T : Type} [LinearOrder T] :
    Container (RangeInclusive T) T :=
  ⟨RangeInclusive.does_contain⟩

/-- Specification predicate: `s` occurs inside `c` as a contiguous,
order-preserving run. -/
def occursIn {T : Type} (s c : List T) : Prop :=
  ∃ pre post, pre ++ s ++ post = c

/-! Helper lemmas. -/

theorem occursIn_of_window {T : Type} (c s : List T) (i : Nat)
    (h : (c.drop i).take s.length = s) : occursIn s c := by
  refine ⟨c.take i, (c.drop i).drop s.length, ?_⟩
  have key : c.take i ++ ((c.drop i).take s.length ++ (c.drop i).drop s.length) = c := by
    rw [List.take_append_drop, List.take_append_drop]
  rw [h] at key
  rw [List.append_assoc]
  exact key

theorem window_of_occursIn {T : Type} (c s : List T) (h : occursIn s c) :
    ∃ i, i < c.length + 1 - s.length ∧ (c.drop i).take s.length = s := by
  obtain ⟨pre, post, hpc⟩ := h
  refine ⟨pre.length, ?_, ?_⟩
  · have hlen := congrArg List.length hpc
    simp [List.length_append] at hlen
    omega
  · have h1 : pre ++ s ++ post = pre ++ (s ++ post) := List.append_assoc pre s post
    rw [← hpc, h1, List.drop_left, List.take_left]

theorem windowsList_any_iff {T : Type} [DecidableEq T] (c s : List T) :
    (((windowsList c s.length).any fun w => decide (w = s)) = true) ↔ occursIn s c := by
  rw [List.any_eq_true]
  constructor
  · rintro ⟨w, hw, hws⟩
    rw [decide_eq_true_eq] at hws
    subst hws
    rw [windowsList, List.mem_map] at hw
    obtain ⟨i, _, hwin⟩ := hw
    exact occursIn_of_window c w i hwin
  · intro h
    obtain ⟨i, hi, hwin⟩ := window_of_occursIn c s h
    refine ⟨s, ?_, by simp⟩
    rw [windowsList, List.mem_map]
    exact ⟨i, List.mem_range.mpr hi, hwin⟩

theorem occursIn_singleton {T : Type} (x : T) (c : List T) :
    occursIn [x] c ↔ x ∈ c := by
  constructor
  · rintro ⟨pre, post, h⟩
    subst h
    simp [List.mem_append]
  · intro h
    obtain ⟨pre, post, h⟩ := List.append_of_mem h
    exact ⟨pre, post, by simp [h]⟩

/-! Claim theorems. -/

/-- C1: for every container type implementing `Container` and every item, the
blanket `In` implementation forwards: `is_in e c` returns exactly
`does_contain c e`, with no additional logic. -/
theorem is_in_eq_does_contain {C T : Type} [Container C T] (e : T) (c : C) :
    In.is_in e c = Container.does_contain c e := rfl

theorem is_in_eq_does_contain_witness :
    In.is_in (3 : Nat) [1, 2, 3] = Container.does_contain [1, 2, 3] (3 : Nat) :=
  is_in_eq_does_contain 3 [1, 2, 3]

/-- C2: for a non-empty item `s`, slice sub-sequence containment returns
`some true` exactly when `s` occurs as a contiguous, order-preserving run in
`c`; in particular `[1,2,3,4,5]` contains `[3,4]` but not `[4,3]`. -/
theorem does_contain_sub_iff_occursIn {T : Type} [DecidableEq T] (c s : List T)
    (h : s ≠ []) :
    (Slice.does_contain_sub c s = some true ↔ occursIn s c)
    ∧ Slice.does_contain_sub ([1, 2, 3, 4, 5] : List Nat) [3, 4] = some true
    ∧ Slice.does_contain_sub ([1, 2, 3, 4, 5] : List Nat) [4, 3] = some false := by
  refine ⟨?_, by decide, by decide⟩
  have hl : s.length ≠ 0 := fun hh => h (List.length_eq_zero.mp hh)
  unfold Slice.does_contain_sub
  rw [if_neg hl, Option.some.injEq]
  exact windowsList_any_iff c s

theorem does_contain_sub_iff_occursIn_witness :
    (([3, 4] : List Nat) ≠ [])
    ∧ (Slice.does_contain_sub ([1, 2, 3, 4, 5] : List Nat) [3, 4] = some true ↔
        occursIn [3, 4] ([1, 2, 3, 4, 5] : List Nat)) :=
  ⟨by decide, (does_contain_sub_iff_occursIn [1, 2, 3, 4, 5] [3, 4] (by decide)).1⟩

/-- C3 counterexample: containment of the empty sub-sequence does not return
true: the Rust code calls `windows(0)`, which panics (modelled as `none`). -/
theorem does_contain_sub_empty_not_true :
    Slice.does_contain_sub ([1, 2, 3, 4, 5] : List Nat) [] ≠ some true := by decide

/-- C3 (amended): for every slice container `c`, testing containment of the
empty sub-sequence panics (`slice::windows` panics on size 0) instead of
returning true. -/
theorem does_contain_sub_empty_none {T : Type} [DecidableEq T] (c : List T) :
    Slice.does_contain_sub c [] = none := rfl

theorem does_contain_sub_empty_none_witness :
    Slice.does_contain_sub ([1, 2, 3] : List Nat) [] = none :=
  does_contain_sub_empty_none [1, 2, 3]

/-- C4: when the sub-sequence item is longer than the container, the window
scan produces zero windows and the test returns `some false` (a normal return,
not a panic). -/
theorem does_contain_sub_longer_false {T : Type} [DecidableEq T] (c s : List T)
    (h : c.length < s.length) :
    windowsList c s.length = [] ∧ Slice.does_contain_sub c s = some false := by
  have h0 : c.length + 1 - s.length = 0 := by omega
  have hw : windowsList c s.length = [] := by
    simp [windowsList, h0]
  refine ⟨hw, ?_⟩
  have hl : s.length ≠ 0 := by omega
  unfold Slice.does_contain_sub
  rw [if_neg hl, hw]
  rfl

theorem does_contain_sub_longer_false_witness :
    ([1, 2, 3, 4, 5] : List Nat).length < ([1, 2, 3, 4, 5, 6] : List Nat).length
    ∧ Slice.does_contain_sub ([1, 2, 3, 4, 5] : List Nat) [1, 2, 3, 4, 5, 6]
        = some false :=
  ⟨by decide,
   (does_contain_sub_longer_false [1, 2, 3, 4, 5] [1, 2, 3, 4, 5, 6] (by decide)).2⟩

/-- C5 counterexample: the sub-sequence test is not total: on an empty item it
panics (`slice::windows` panics on size 0, modelled as `none`). -/
theorem does_contain_sub_empty_panics :
    (Slice.does_contain_sub ([1] : List Nat) []).isSome = false := by decide

/-- C5 (amended): every shape except sub-sequence containment is total by
construction (it returns a `Bool`); sub-sequence containment returns a boolean
exactly when the item is non-empty, and panics on the empty item. -/
theorem does_contain_sub_isSome_iff {T : Type} [DecidableEq T] (c s : List T) :
    (Slice.does_contain_sub c s).isSome = true ↔ s ≠ [] := by
  unfold Slice.does_contain_sub
  cases s with
  | nil => simp
  | cons a t => simp

theorem does_contain_sub_isSome_iff_witness :
    (Slice.does_contain_sub ([1, 2] : List Nat) [2]).isSome = true ↔
      ([2] : List Nat) ≠ [] :=
  does_contain_sub_isSome_iff [1, 2] [2]

/-- C6: an optional value contains `x` exactly when it is `some` and its
payload equals `x`; an absent optional contains nothing. -/
theorem option_does_contain_iff {T : Type} [DecidableEq T] (o : Option T) (x : T) :
    ( Option.does_contain o x = true ↔ o = some x)
    ∧ Option.does_contain (none : Option T) x = false := by
  refine ⟨?_, rfl⟩
  cases o with
  | none => simp [Option.does_contain]
  | some a => simp [Option.does_contain]

theorem option_does_contain_iff_witness :
    ( Option.does_contain (some 3) (3 : Nat) = true ↔ some 3 = some (3 : Nat)) :=
  (option_does_contain_iff (some 3) 3).1

/-- C7: a half-open range `lo..hi` contains `x` iff `lo ≤ x < hi` (so `0..5`
contains 3 but not 5), and an inclusive range `lo..=hi` contains `x` iff
`lo ≤ x ≤ hi` (so `0..=6` contains 6). -/
theorem range_does_contain_bounds {T : Type} [LinearOrder T] (lo hi x : T) :
    (Range.does_contain ⟨lo, hi⟩ x = true ↔ lo ≤ x ∧ x < hi)
    ∧ (RangeInclusive.does_contain ⟨lo, hi⟩ x = true ↔ lo ≤ x ∧ x ≤ hi)
    ∧ Range.does_contain ⟨(0 : Int), 5⟩ 3 = true
    ∧ Range.does_contain ⟨(0 : Int), 5⟩ 5 = false
    ∧ RangeInclusive.does_contain ⟨(0 : Int), 6⟩ 6 = true := by
  refine ⟨?_, ?_, by decide, by decide, by decide⟩
  · simp [Range.does_contain]
  · simp [RangeInclusive.does_contain]

theorem range_does_contain_bounds_witness :
    Range.does_contain ⟨(0 : Int), 5⟩ 3 = true :=
  (range_does_contain_bounds (0 : Int) 5 3).2.2.1

/-- C8: `does_contain` is deterministic and pure: two calls with unchanged
inputs return the same boolean, for every embedded shape.  (Non-mutation of
the container and the item holds by construction: the Rust methods take
shared borrows, modelled here as pure functions.) -/
theorem does_contain_pure {T : Type} [DecidableEq T] [LinearOrder T]
    (c c' s s' : List T) (o o' : Option T) (r r' : Range T) (e e' : T)
    (hc : c = c') (hs : s = s') (ho : o = o') (hr : r = r') (he : e = e') :
    Vec.does_contain c e = Vec.does_contain c' e'
    ∧ Option.does_contain o e = Option.does_contain o' e'
    ∧ Range.does_contain r e = Range.does_contain r' e'
    ∧ Slice.does_contain_sub c s = Slice.does_contain_sub c' s' := by
  subst hc; subst hs; subst ho; subst hr; subst he
  exact ⟨rfl, rfl, rfl, rfl⟩

theorem does_contain_pure_witness :
    Vec.does_contain ([1, 2] : List Int) 2 = Vec.does_contain ([1, 2] : List Int) 2 :=
  (does_contain_pure [1, 2] [1, 2] [2] [2] (some 2) (some 2) ⟨0, 5⟩ ⟨0, 5⟩ 2 2
    rfl rfl rfl rfl rfl).1

/-- C9: every mixed-shape sub-sequence implementation (array in array, array
item in slice, slice item in array, array or slice item in Vec) returns
exactly what the slice-against-slice implementation returns on the two values
viewed as slices. -/
theorem mixed_shapes_eq_slice_slice {T : Type} [DecidableEq T] {N N1 : Nat}
    (a : RustArray T N) (b : RustArray T N1) (c s : List T) :
    RustArray.does_contain_arr a b = Slice.does_contain_sub a.data b.data
    ∧ Slice.does_contain_arr c b = Slice.does_contain_sub c b.data
    ∧ RustArray.does_contain_slice a s = Slice.does_contain_sub a.data s
    ∧ Vec.does_contain_arr c b = Slice.does_contain_sub c b.data
    ∧ Vec.does_contain_slice c s = Slice.does_contain_sub c s :=
  ⟨rfl, rfl, rfl, rfl, rfl⟩

theorem mixed_shapes_eq_slice_slice_witness :
    RustArray.does_contain_arr (⟨[1, 2, 3], rfl⟩ : RustArray Nat 3)
        (⟨[2, 3], rfl⟩ : RustArray Nat 2)
      = Slice.does_contain_sub [1, 2, 3] [2, 3] :=
  (mixed_shapes_eq_slice_slice ⟨[1, 2, 3], rfl⟩ ⟨[2, 3], rfl⟩ [1] [2]).1

/-- C10: containment of the one-element sub-sequence `[x]` coincides with
element containment of `x` (and, the item being non-empty, returns normally). -/
theorem singleton_sub_eq_elem {T : Type} [DecidableEq T] (c : List T) (x : T) :
    Slice.does_contain_sub c [x] = some (Slice.does_contain c x) := by
  have h1 : (((windowsList c [x].length).any fun w => decide (w = [x])) = true)
      ↔ x ∈ c := by
    rw [windowsList_any_iff, occursIn_singleton]
  have h2 : Slice.does_contain c x = true ↔ x ∈ c := by
    simp [Slice.does_contain]
  have h3 : ((windowsList c [x].length).any fun w => decide (w = [x]))
      = Slice.does_contain c x := by
    by_cases hx : x ∈ c
    · rw [h1.mpr hx, h2.mpr hx]
    · have hA := Bool.eq_false_iff.mpr fun hcontra => hx (h1.mp hcontra)
      have hB := Bool.eq_false_iff.mpr fun hcontra => hx (h2.mp hcontra)
      rw [hA, hB]
  unfold Slice.does_contain_sub
  rw [if_neg (by simp : ¬([x] : List T).length = 0), h3]

theorem singleton_sub_eq_elem_witness :
    Slice.does_contain_sub ([1, 2, 3] : List Nat) [2]
      = some (Slice.does_contain [1, 2, 3] 2) :=
  singleton_sub_eq_elem [1, 2, 3] 2
